import Mathlib

/-!
Verification of the maker-keeper-scripts window-scheduling and job-runner core.

The definitions below are shallow embeddings of the TypeScript sources:
- `calculateNextMasterWindow` and `getEnvVariable` from `src/utils/misc.ts`;
- the per-job work attempt `tryToWorkJob`, the scheduler `run` of both script
  variants (the recursive Flashbots variant and the single-pass
  PrivateBroadcastor variant), the whitelist scan
  `fetchAndUpdateNetworksData`, and the `jobs` mapping handlers of
  `fetchJobsAndSubscribeToChanges`, all from `upkeep-job.ts`.

JavaScript numbers are embedded as exact integers (`ℤ`); the one real-number
operation, `Math.ceil` of a division, is embedded as exact rational division
followed by `Int.ceil`.
-/

/-! ## WindowMath: calculateNextMasterWindow (src/utils/misc.ts) -/

/-- Embedding of `calculateNextMasterWindow` from `src/utils/misc.ts`:
`fullWindow = blocksInWindow * networksAmount`, `offset = mainPosition *
blocksInWindow`, `timesPassedByActiveNetwork = Math.ceil((blockNumber - offset)
/ fullWindow)`, returning `fullWindow * timesPassedByActiveNetwork + offset`. -/
def calculateNextMasterWindow (blockNumber blocksInWindow networksAmount mainPosition : ℤ) : ℤ :=
  let fullWindow : ℤ := blocksInWindow * networksAmount
  let offset : ℤ := mainPosition * blocksInWindow
  let timesPassedByActiveNetwork : ℤ := ⌈((blockNumber - offset : ℤ) : ℚ) / ((fullWindow : ℤ) : ℚ)⌉
  fullWindow * timesPassedByActiveNetwork + offset

/-! ## getEnvVariable (src/utils/misc.ts) -/

/-- Embedding of `getEnvVariable` from `src/utils/misc.ts`. The environment is
passed as `env : String → Option String` (`process.env`); the JavaScript
truthiness test `if (!value) throw` rejects both an absent variable and the
empty string. -/
def getEnvVariable (name : String) (env : String → Option String) : Except String String :=
  match env name with
  | none => Except.error ("Environment variable " ++ name ++ " not found")
  | some v =>
      if v = "" then Except.error ("Environment variable " ++ name ++ " not found")
      else Except.ok v

/-- C1: for every input with `windowLength ≥ 1`, `whitelistSize ≥ 1` and
`0 ≤ selfPosition < whitelistSize`, `calculateNextMasterWindow` returns the
smallest block number that is `≥ currentBlock` and congruent to
`selfPosition * windowLength` modulo `windowLength * whitelistSize`; when
`currentBlock` is `selfPosition * windowLength` plus an exact multiple of the
full cycle it returns `currentBlock` itself, and on
`(100, 13, 5, 2)` it returns `156`. -/
theorem C1_calculateNextMasterWindow_correct
    (currentBlock windowLength whitelistSize selfPosition : ℤ)
    (hw : 1 ≤ windowLength) (hn : 1 ≤ whitelistSize)
    (hp0 : 0 ≤ selfPosition) (hpn : selfPosition < whitelistSize) :
    currentBlock ≤ calculateNextMasterWindow currentBlock windowLength whitelistSize selfPosition ∧
    calculateNextMasterWindow currentBlock windowLength whitelistSize selfPosition
        % (windowLength * whitelistSize)
      = (selfPosition * windowLength) % (windowLength * whitelistSize) ∧
    (∀ b : ℤ, currentBlock ≤ b →
        b % (windowLength * whitelistSize)
          = (selfPosition * windowLength) % (windowLength * whitelistSize) →
        calculateNextMasterWindow currentBlock windowLength whitelistSize selfPosition ≤ b) ∧
    (∀ k : ℤ, currentBlock = selfPosition * windowLength + k * (windowLength * whitelistSize) →
        calculateNextMasterWindow currentBlock windowLength whitelistSize selfPosition
          = currentBlock) ∧
    calculateNextMasterWindow 100 13 5 2 = 156 := by
  have hex : calculateNextMasterWindow 100 13 5 2 = 156 := by
    have h74 : (⌈((74 : ℚ)) / 65⌉ : ℤ) = 2 := by
      rw [Int.ceil_eq_iff]
      norm_num
    simp only [calculateNextMasterWindow]
    norm_num [h74]
  have hc : (0 : ℤ) < windowLength * whitelistSize := by positivity
  have hcq : (0 : ℚ) < ((windowLength * whitelistSize : ℤ) : ℚ) := by exact_mod_cast hc
  set c : ℤ := windowLength * whitelistSize with hcdef
  set offset : ℤ := selfPosition * windowLength with hodef
  have hunfold : calculateNextMasterWindow currentBlock windowLength whitelistSize selfPosition
      = c * ⌈((currentBlock - offset : ℤ) : ℚ) / ((c : ℤ) : ℚ)⌉ + offset := by
    simp only [calculateNextMasterWindow, hcdef, hodef]
  set t : ℤ := ⌈((currentBlock - offset : ℤ) : ℚ) / ((c : ℤ) : ℚ)⌉ with htdef
  have hle : currentBlock - offset ≤ c * t := by
    have h1 : ((currentBlock - offset : ℤ) : ℚ) / ((c : ℤ) : ℚ) ≤ (t : ℚ) := Int.le_ceil _
    have h2 : ((currentBlock - offset : ℤ) : ℚ) ≤ (t : ℚ) * ((c : ℤ) : ℚ) :=
      (div_le_iff₀ hcq).mp h1
    have h3 : currentBlock - offset ≤ t * c := by exact_mod_cast h2
    linarith [h3]
  refine ⟨?_, ?_, ?_, ?_, ?_⟩
  · rw [hunfold]; linarith
  · rw [hunfold]
    have : c * t + offset = offset + c * t := by ring
    rw [this]
    exact Int.add_mul_emod_self_left offset c t
  · intro b hb hmod
    rw [hunfold]
    have hdvd : c ∣ b - offset := by
      have : b ≡ offset [ZMOD c] := hmod
      exact (Int.ModEq.dvd this.symm)
    obtain ⟨m, hm⟩ := hdvd
    have hdm : currentBlock - offset ≤ c * m := by
      have : currentBlock - offset ≤ b - offset := by linarith
      rw [hm] at this
      exact this
    have htm : t ≤ m := by
      rw [htdef]
      rw [Int.ceil_le]
      rw [div_le_iff₀ hcq]
      have : ((currentBlock - offset : ℤ) : ℚ) ≤ ((c * m : ℤ) : ℚ) := by exact_mod_cast hdm
      push_cast at this ⊢
      linarith
    have : c * t ≤ c * m := by
      exact mul_le_mul_of_nonneg_left htm (le_of_lt hc)
    linarith [hm, this]
  · intro k hk
    rw [hunfold, htdef]
    have hd : currentBlock - offset = k * c := by rw [hk, hodef]; ring
    have hq : ((currentBlock - offset : ℤ) : ℚ) / ((c : ℤ) : ℚ) = (k : ℚ) := by
      rw [hd]
      push_cast
      field_simp
    rw [hq, Int.ceil_intCast]
    rw [hk, hodef]
    ring
  · exact hex

/-- Witness for C1 at the concrete input from the spec. -/
theorem C1_witness :
    calculateNextMasterWindow 100 13 5 2 = 156 :=
  (C1_calculateNextMasterWindow_correct 100 13 5 2 (by norm_num) (by norm_num)
    (by norm_num) (by norm_num)).2.2.2.2

/-- C10: `getEnvVariable` returns the environment value unchanged when it is a
non-empty string, and produces an error mentioning the variable name exactly
when the variable is unset or set to the empty string. -/
theorem C10_getEnvVariable_correct (name : String) (env : String → Option String) :
    (∀ v, env name = some v → v ≠ "" → getEnvVariable name env = Except.ok v) ∧
    ((env name = none ∨ env name = some "") ↔
      getEnvVariable name env
        = Except.error ("Environment variable " ++ name ++ " not found")) ∧
    (∀ msg, getEnvVariable name env = Except.error msg →
      ∃ pre post, msg = pre ++ name ++ post) := by
  refine ⟨?_, ⟨?_, ?_⟩, ?_⟩
  · intro v hv hne
    simp [getEnvVariable, hv, hne]
  · intro h
    rcases h with h | h <;> simp [getEnvVariable, h]
  · intro h
    cases henv : env name with
    | none => exact Or.inl rfl
    | some v =>
        by_cases hv : v = ""
        · right
          rw [hv]
        · exfalso
          simp [getEnvVariable, henv, hv] at h
  · intro msg h
    cases henv : env name with
    | none =>
        simp only [getEnvVariable, henv] at h
        injection h with h
        exact ⟨"Environment variable ", " not found", h.symm⟩
    | some v =>
        by_cases hv : v = ""
        · simp only [getEnvVariable, henv, hv] at h
          rw [if_pos trivial] at h
          injection h with h
          exact ⟨"Environment variable ", " not found", h.symm⟩
        · simp [getEnvVariable, henv, hv] at h

/-- Witness for C10 on a concrete environment. -/
theorem C10_witness :
    getEnvVariable "RPC_HTTPS_URI" (fun _ => some "https://rpc.example")
      = Except.ok "https://rpc.example" :=
  (C10_getEnvVariable_correct "RPC_HTTPS_URI" (fun _ => some "https://rpc.example")).1
    "https://rpc.example" rfl (by decide)

/-! ## JobRunner: tryToWorkJob (upkeep-job.ts, Flashbots variant)

The function is embedded as a trace of the externally visible events it
performs, in program order, together with the final value of
`jobWorkInProgress[job.address]`. The source order is: read the in-progress
flag and return if set; `await job.workable(...)`; return if not workable;
set the flag; a `try` block whose awaits culminate in
`sendAndRetryUntilNotWorkable` (the Broadcast invocation); `catch` logs;
`finally` clears the flag. -/

/-- Outcome of the `try` block of `tryToWorkJob`: the broadcast resolved with
inclusion, resolved without inclusion, threw, or an earlier await inside the
`try` (nonce fetch, gas parameters, transaction population) threw before the
broadcast was reached. -/
inductive BroadcastOutcome
  | included
  | notIncluded
  | threwDuringBroadcast
  | threwBeforeBroadcast
deriving DecidableEq, Fintype, Repr

/-- Externally visible events of one `tryToWorkJob` attempt. -/
inductive JobEvent
  | queryWorkable
  | setInProgress (b : Bool)
  | invokeBroadcast
  | logSuccess
  | logError
deriving DecidableEq, Fintype, Repr

/-- Embedding of `tryToWorkJob`: given the value of
`jobWorkInProgress[job.address]` at entry, the boolean returned by
`job.workable(KEEP3R_NETWORK_TAG)`, and the outcome of the `try` block,
returns the final flag value and the event trace in program order. -/
def tryToWorkJob (inProgress : Bool) (isWorkable : Bool) (outcome : BroadcastOutcome) :
    Bool × List JobEvent :=
  if inProgress then (inProgress, [])
  else if !isWorkable then (inProgress, [JobEvent.queryWorkable])
  else
    match outcome with
    | BroadcastOutcome.included =>
        (false, [JobEvent.queryWorkable, JobEvent.setInProgress true, JobEvent.invokeBroadcast,
          JobEvent.logSuccess, JobEvent.setInProgress false])
    | BroadcastOutcome.notIncluded =>
        (false, [JobEvent.queryWorkable, JobEvent.setInProgress true, JobEvent.invokeBroadcast,
          JobEvent.setInProgress false])
    | BroadcastOutcome.threwDuringBroadcast =>
        (false, [JobEvent.queryWorkable, JobEvent.setInProgress true, JobEvent.invokeBroadcast,
          JobEvent.logError, JobEvent.setInProgress false])
    | BroadcastOutcome.threwBeforeBroadcast =>
        (false, [JobEvent.queryWorkable, JobEvent.setInProgress true,
          JobEvent.logError, JobEvent.setInProgress false])

/-! ## Interleaving model of two concurrent tryToWorkJob attempts

JavaScript interleaves async functions only at `await` points, so an attempt
decomposes into the atomic segments between its awaits. Two attempts for the
same job address share `jobWorkInProgress[job.address]` (here `flag`) and the
count of Broadcast invocations. Both attempts observe a workable job. -/

/-- Program counter of one attempt; each step below runs one atomic segment
(code between two awaits) of `tryToWorkJob`. -/
inductive TPC
  | start
  | awaitingWorkable
  | inTry
  | awaitingBroadcast
  | done
deriving DecidableEq, Repr

/-- Runs the atomic segment of `tryToWorkJob` at program counter `pc` on the
shared flag and broadcast count:
at `start`, the guard reads the flag (if set, the attempt returns; otherwise
it suspends at `await job.workable`); at `awaitingWorkable`, the workable
result (true) arrives and the segment sets the flag and enters the `try`,
suspending at the nonce fetch; at `inTry`, the broadcast is invoked; at
`awaitingBroadcast`, the broadcast resolves and the `finally` clears the
flag. -/
def stepThread : TPC → Bool → ℕ → TPC × Bool × ℕ
  | TPC.start, flag, count =>
      if flag then (TPC.done, flag, count)
      else (TPC.awaitingWorkable, flag, count)
  | TPC.awaitingWorkable, _, count => (TPC.inTry, true, count)
  | TPC.inTry, flag, count => (TPC.awaitingBroadcast, flag, count + 1)
  | TPC.awaitingBroadcast, _, count => (TPC.done, false, count)
  | TPC.done, flag, count => (TPC.done, flag, count)

/-- Shared state of two interleaved attempts for the same job address. -/
structure RaceState where
  flag : Bool
  broadcasts : ℕ
  pcA : TPC
  pcB : TPC
deriving DecidableEq, Repr

/-- Schedules one atomic segment of attempt A (`false`) or B (`true`). -/
def schedStep (s : RaceState) (thread : Bool) : RaceState :=
  if thread then
    let r := stepThread s.pcB s.flag s.broadcasts
    ⟨r.2.1, r.2.2, s.pcA, r.1⟩
  else
    let r := stepThread s.pcA s.flag s.broadcasts
    ⟨r.2.1, r.2.2, r.1, s.pcB⟩

/-- Runs a schedule (a list of thread choices) from a state. -/
def runSched : List Bool → RaceState → RaceState
  | [], s => s
  | t :: rest, s => runSched rest (schedStep s t)

/-- C2 counterexample: under the schedule in which both attempts run their
guard segment before either receives its workable result (possible because the
flag is only set after the `await job.workable` suspension point), both
attempts complete and the Broadcast capability is invoked twice, not once. -/
theorem C2_counterexample :
    runSched [false, true, false, false, false, true, true, true]
        ⟨false, 0, TPC.start, TPC.start⟩
      = ⟨false, 2, TPC.done, TPC.done⟩ ∧
    ¬ (runSched [false, true, false, false, false, true, true, true]
        ⟨false, 0, TPC.start, TPC.start⟩).broadcasts = 1 := by
  decide

/-- C2 as amended: an attempt that observes the in-progress flag set at its
guard returns immediately with no events and no Broadcast invocation (and, in
the interleaved model, a thread whose guard segment runs while the flag is set
moves directly to `done`, from which no segment ever changes the shared
state); mutual exclusion therefore holds against attempts that begin after the
flag is set, but not against an attempt whose guard runs during the window
between another attempt's guard and its flag assignment. -/
theorem C2_amended :
    (∀ (w : Bool) (o : BroadcastOutcome), tryToWorkJob true w o = (true, [])) ∧
    (∀ (f : Bool) (c : ℕ), f = true → stepThread TPC.start f c = (TPC.done, f, c)) ∧
    (∀ (f : Bool) (c : ℕ), stepThread TPC.done f c = (TPC.done, f, c)) := by
  refine ⟨fun w o => rfl, ?_, fun f c => rfl⟩
  intro f c hf
  rw [hf]
  rfl

/-- Witness for C2_amended at a concrete flag state. -/
theorem C2_amended_witness :
    stepThread TPC.start true 5 = (TPC.done, true, 5) :=
  C2_amended.2.1 true 5 rfl

/-- C3: every attempt that reaches the Broadcast invocation ends with the
in-progress flag false, on every outcome (inclusion, failed inclusion, or an
exception from the broadcast call); the flag is never left true after the
attempt concludes. -/
theorem C3_flag_cleared :
    ∀ (inProgress isWorkable : Bool) (o : BroadcastOutcome),
      JobEvent.invokeBroadcast ∈ (tryToWorkJob inProgress isWorkable o).2 →
      (tryToWorkJob inProgress isWorkable o).1 = false := by
  decide

/-- Witness for C3 on a broadcast that throws. -/
theorem C3_witness :
    (tryToWorkJob false true BroadcastOutcome.threwDuringBroadcast).1 = false :=
  C3_flag_cleared false true BroadcastOutcome.threwDuringBroadcast (by decide)

/-- C7 counterexample: an attempt that passes the duplicate-attempt guard on a
not-workable job produces the trace `[queryWorkable]`: the in-progress flag is
not set before the workability query (no `setInProgress true` precedes
`queryWorkable` in the trace — there is none at all), and the not-workable
return does not clear the flag (no `setInProgress false` either); the flag is
set only after the query reports workable. -/
theorem C7_counterexample :
    (tryToWorkJob false false BroadcastOutcome.included).2 = [JobEvent.queryWorkable] ∧
    (¬ ∃ i j : ℕ, i < j ∧
        (tryToWorkJob false false BroadcastOutcome.included).2.get? i
          = some (JobEvent.setInProgress true) ∧
        (tryToWorkJob false false BroadcastOutcome.included).2.get? j
          = some JobEvent.queryWorkable) ∧
    JobEvent.setInProgress false ∉ (tryToWorkJob false false BroadcastOutcome.included).2 := by
  refine ⟨rfl, ?_, by decide⟩
  rintro ⟨i, j, hij, hi, hj⟩
  match i with
  | 0 => simp [tryToWorkJob] at hi
  | n + 1 => simp [tryToWorkJob] at hi

/-- C7 as amended: after the duplicate-attempt guard, the attempt queries the
workability predicate first; if the job is not workable it returns without
invoking Broadcast and without touching the flag (which stays false); only
when the job is workable does it set the flag to true, immediately after the
query and before the Broadcast invocation. -/
theorem C7_amended :
    ∀ (w : Bool) (o : BroadcastOutcome),
      (tryToWorkJob false w o).2.head? = some JobEvent.queryWorkable ∧
      (w = false →
        (tryToWorkJob false w o).1 = false ∧
        JobEvent.invokeBroadcast ∉ (tryToWorkJob false w o).2 ∧
        JobEvent.setInProgress true ∉ (tryToWorkJob false w o).2) ∧
      (w = true →
        (tryToWorkJob false w o).2.get? 1 = some (JobEvent.setInProgress true)) := by
  decide

/-- Witness for C7_amended on a concrete not-workable attempt. -/
theorem C7_amended_witness :
    (tryToWorkJob false false BroadcastOutcome.included).1 = false :=
  ((C7_amended false BroadcastOutcome.included).2.1 rfl).1

/-! ## WindowScheduler: the run function of both script variants

Constant values from `src/utils/contants.ts`. -/

/-- Average block duration in milliseconds (`12 * 1000`). -/
def BLOCK_DURATION : ℤ := 12 * 1000

/-- Listening-start safety margin in milliseconds (`5 * BLOCK_DURATION`). -/
def TOLERANCE_THRESHOLD : ℤ := 5 * BLOCK_DURATION

/-- Embedding of the sleep-duration computation of `run` (both variants):
`remainderBlocks = windowStart - currentBlock` and
`time = remainderBlocks * BLOCK_DURATION - TOLERANCE_THRESHOLD`, with no
clamping in the source. -/
def computedSleepTime (currentBlock blocksInWindow networksAmount pos : ℤ) : ℤ :=
  let windowStart := calculateNextMasterWindow currentBlock blocksInWindow networksAmount pos
  let remainderBlocks := windowStart - currentBlock
  remainderBlocks * BLOCK_DURATION - TOLERANCE_THRESHOLD

/-- Embedding of the Node.js timer semantics the Flashbots variant hands the
computed time to: `setTimeout` replaces a delay below 1 ms or above
`2^31 - 1` ms by 1 ms, so the delay actually used is this function of the
computed value. -/
def setTimeoutDelay (t : ℤ) : ℤ :=
  if t < 1 ∨ 2147483647 < t then 1 else t

/-- C6 counterexample: with `blocksInWindow = 13`, `networksAmount = 5`,
`selfPosition = 2` and `currentBlock = 156` (a block that itself starts the
master window), the computed sleep duration is `-60000`, a negative value, and
is not equal to the claimed clamped-to-nonnegative form of the same
expression. -/
theorem C6_counterexample :
    computedSleepTime 156 13 5 2 = -60000 ∧
    computedSleepTime 156 13 5 2
      ≠ max 0 ((calculateNextMasterWindow 156 13 5 2 - 156) * BLOCK_DURATION
          - TOLERANCE_THRESHOLD) := by
  have h130 : (⌈((130 : ℚ)) / 65⌉ : ℤ) = 2 := by
    rw [Int.ceil_eq_iff]
    norm_num
  have hcalc : calculateNextMasterWindow 156 13 5 2 = 156 := by
    simp only [calculateNextMasterWindow]
    norm_num [h130]
  have htime : computedSleepTime 156 13 5 2 = -60000 := by
    simp only [computedSleepTime, hcalc, BLOCK_DURATION, TOLERANCE_THRESHOLD]
    norm_num
  refine ⟨htime, ?_⟩
  rw [htime, hcalc]
  simp [BLOCK_DURATION, TOLERANCE_THRESHOLD]

/-- C6 as amended: the code computes
`(windowStart - currentBlock) * BLOCK_DURATION - TOLERANCE_THRESHOLD` with no
clamping, so the computed duration may be negative; the Flashbots variant
passes it to `setTimeout`, whose platform clamping makes the delay actually
used always at least 1 ms (in particular never negative), and equal to the
computed duration whenever that duration lies in the timer's range. -/
theorem C6_amended (currentBlock blocksInWindow networksAmount pos : ℤ) :
    computedSleepTime currentBlock blocksInWindow networksAmount pos
      = (calculateNextMasterWindow currentBlock blocksInWindow networksAmount pos
          - currentBlock) * BLOCK_DURATION - TOLERANCE_THRESHOLD ∧
    0 ≤ setTimeoutDelay (computedSleepTime currentBlock blocksInWindow networksAmount pos) ∧
    (1 ≤ computedSleepTime currentBlock blocksInWindow networksAmount pos →
      computedSleepTime currentBlock blocksInWindow networksAmount pos ≤ 2147483647 →
      setTimeoutDelay (computedSleepTime currentBlock blocksInWindow networksAmount pos)
        = computedSleepTime currentBlock blocksInWindow networksAmount pos) := by
  refine ⟨rfl, ?_, ?_⟩
  · unfold setTimeoutDelay
    split
    · norm_num
    · rename_i h
      push_neg at h
      linarith [h.1]
  · intro h1 h2
    unfold setTimeoutDelay
    rw [if_neg]
    push_neg
    exact ⟨by linarith, by linarith⟩

/-- Witness for C6_amended at a concrete input where the computed duration is
positive and within the timer range. -/
theorem C6_amended_witness :
    0 ≤ setTimeoutDelay (computedSleepTime 100 13 5 2) ∧
    setTimeoutDelay (computedSleepTime 100 13 5 2) = computedSleepTime 100 13 5 2 := by
  have h74 : (⌈((74 : ℚ)) / 65⌉ : ℤ) = 2 := by
    rw [Int.ceil_eq_iff]
    norm_num
  have htime : computedSleepTime 100 13 5 2 = 612000 := by
    simp only [computedSleepTime, calculateNextMasterWindow, BLOCK_DURATION, TOLERANCE_THRESHOLD]
    norm_num [h74]
  exact ⟨(C6_amended 100 13 5 2).2.1,
    (C6_amended 100 13 5 2).2.2 (by rw [htime]; norm_num) (by rw [htime]; norm_num)⟩

/-! ## Block handlers and run of the two script variants

The PrivateBroadcastor variant's `blockListener.stream` handler checks only
`block.number < windowStart`; it has no window-end branch and no call to an
unsubscribe function. The Flashbots variant's handler additionally cancels the
subscription and reschedules when `block.number >= windowEnd`. -/

/-- Result of one delivered block in the PrivateBroadcastor variant: either
the block is before the window start (ignored) or every tracked job is
dispatched. There is no cancellation outcome, matching the source. -/
inductive NewHandlerResult
  | ignore
  | work (attempts : List (String × ℤ))
deriving DecidableEq, Repr

/-- Embedding of the PrivateBroadcastor variant's per-block handler. -/
def newBlockHandler (windowStart : ℤ) (jobAddrs : List String) (b : ℤ) : NewHandlerResult :=
  if b < windowStart then NewHandlerResult.ignore
  else NewHandlerResult.work (jobAddrs.map (fun j => (j, b)))

/-- Result of one delivered block in the Flashbots variant. -/
inductive OldHandlerResult
  | ignore
  | closeAndReschedule
  | work (attempts : List (String × ℤ))
deriving DecidableEq, Repr

/-- Embedding of the Flashbots variant's per-block handler: before the window
start the block is ignored; at or after `windowEnd` the handler calls
`unsubscribe()` and re-invokes `run`; inside the window every tracked job is
dispatched to `tryToWorkJob`. -/
def oldBlockHandler (windowStart windowEnd : ℤ) (jobAddrs : List String) (b : ℤ) :
    OldHandlerResult :=
  if b < windowStart then OldHandlerResult.ignore
  else if windowEnd ≤ b then OldHandlerResult.closeAndReschedule
  else OldHandlerResult.work (jobAddrs.map (fun j => (j, b)))

/-- The Flashbots variant's handler deterministically cancels the subscription
and returns to the waiting phase on every block at or past the window end. -/
theorem oldBlockHandler_closes_window (windowStart windowEnd : ℤ) (jobAddrs : List String)
    (b : ℤ) (hs : windowStart ≤ b) (he : windowEnd ≤ b) :
    oldBlockHandler windowStart windowEnd jobAddrs b = OldHandlerResult.closeAndReschedule := by
  unfold oldBlockHandler
  rw [if_neg (by omega), if_pos he]

/-- Outcome of one invocation of the PrivateBroadcastor variant's `run`:
whether the early `keep3rSequencerPosition === -1` check returned, the window
bounds computed after the in-run resync, the job attempts dispatched for the
delivered blocks, and whether the block subscription was ever cancelled (the
handler has no unsubscribe path, so this is false whenever the stream is
started). -/
structure NewRunResult where
  halted : Bool
  window : Option (ℤ × ℤ)
  attempts : List (String × ℤ)
  subscriptionCancelled : Bool
deriving DecidableEq, Repr

/-- Embedding of the PrivateBroadcastor variant's `run`: the not-whitelisted
check reads `keep3rSequencerPosition` as it is at the call (`posAtCall`,
which is its initial value 0 at the script's only invocation); the fetches
inside `run` then resync the position to `resyncPos`; the window is computed
from the resynced state and the stream handler processes every delivered
block. -/
def runNew (posAtCall resyncPos currentBlock blocksInWindow networksAmount : ℤ)
    (jobAddrs : List String) (blocks : List ℤ) : NewRunResult :=
  if posAtCall = -1 then ⟨true, none, [], false⟩
  else
    let ws := calculateNextMasterWindow currentBlock blocksInWindow networksAmount resyncPos
    let we := ws + blocksInWindow
    let atts := blocks.foldr
      (fun b acc =>
        match newBlockHandler ws jobAddrs b with
        | NewHandlerResult.ignore => acc
        | NewHandlerResult.work a => a ++ acc) []
    ⟨false, some (ws, we), atts, false⟩

/-- C4: evaluation of the PrivateBroadcastor variant's `run` at the failing
input: the position is 0 when the early check runs, the in-run resync then
determines -1 (the agent is not whitelisted), and yet the cycle still computes
a window (117 to 130) and still dispatches a job attempt — the scheduler does
not halt. -/
theorem C4_bug_eval :
    runNew 0 (-1) 100 13 5 ["0xJob"] [117]
      = ⟨false, some (117, 130), [("0xJob", 117)], false⟩ := by
  have h113 : (⌈((113 : ℚ)) / 65⌉ : ℤ) = 2 := by
    rw [Int.ceil_eq_iff]
    norm_num
  have hcalc : calculateNextMasterWindow 100 13 5 (-1) = 117 := by
    simp only [calculateNextMasterWindow]
    norm_num [h113]
  simp only [runNew, hcalc]
  norm_num [newBlockHandler]

/-- C5: evaluation of the PrivateBroadcastor variant's `run` at the failing
input: with a valid resynced position 2 the window is 156 to 169, yet the
delivered block 500, far past the window end, is still dispatched as work and
the subscription is never cancelled — the handler has no window-end branch. -/
theorem C5_bug_eval :
    runNew 0 2 100 13 5 ["0xJob"] [500]
      = ⟨false, some (156, 169), [("0xJob", 500)], false⟩ ∧ (169 : ℤ) ≤ 500 := by
  have h74 : (⌈((74 : ℚ)) / 65⌉ : ℤ) = 2 := by
    rw [Int.ceil_eq_iff]
    norm_num
  have hcalc : calculateNextMasterWindow 100 13 5 2 = 156 := by
    simp only [calculateNextMasterWindow]
    norm_num [h74]
  refine ⟨?_, by norm_num⟩
  simp only [runNew, hcalc]
  norm_num [newBlockHandler]

/-! ## ProtocolState: fetchAndUpdateNetworksData (both variants)

The source reads `numNetworks`, then scans indices 0 .. numNetworks-1 with
`networkAt(index)`, assigning `keep3rSequencerPosition = index` and returning
at the first index whose member equals `KEEP3R_NETWORK_TAG`; if the loop
completes it assigns -1. The whitelist is embedded as the list
`[networkAt 0, ..., networkAt (numNetworks - 1)]`. -/

/-- Loop of `fetchAndUpdateNetworksData`: scans the remaining members carrying
the index of the first one. -/
def findPositionAux (tag : String) : List String → ℤ → ℤ
  | [], _ => -1
  | network :: rest, index =>
      if network = tag then index else findPositionAux tag rest (index + 1)

/-- Embedding of `fetchAndUpdateNetworksData`: the value assigned to
`keep3rSequencerPosition`, given the whitelist contents and this agent's
identity tag. -/
def fetchAndUpdateNetworksData (networks : List String) (tag : String) : ℤ :=
  findPositionAux tag networks 0

/-- Characterization of the scan loop: starting at a nonnegative index it
either returns -1 and no member matches, or returns the start index plus the
least matching offset. -/
theorem findPositionAux_spec (tag : String) :
    ∀ (l : List String) (i : ℤ), 0 ≤ i →
      (findPositionAux tag l i = -1 ∧ ∀ j : ℕ, l.get? j ≠ some tag) ∨
      (∃ k : ℕ, findPositionAux tag l i = i + k ∧ l.get? k = some tag ∧
        ∀ j : ℕ, j < k → l.get? j ≠ some tag) := by
  intro l
  induction l with
  | nil =>
      intro i _
      left
      exact ⟨rfl, fun j => by simp⟩
  | cons network rest ih =>
      intro i hi
      by_cases h : network = tag
      · right
        refine ⟨0, ?_, by simp [h], fun j hj => absurd hj (Nat.not_lt_zero j)⟩
        simp [findPositionAux, h]
      · rcases ih (i + 1) (by omega) with ⟨h1, h2⟩ | ⟨k, hk, hget, hmin⟩
        · left
          refine ⟨by simp [findPositionAux, h, h1], ?_⟩
          intro j
          match j with
          | 0 => simp [h]
          | j + 1 => simpa using h2 j
        · right
          refine ⟨k + 1, ?_, by simpa using hget, ?_⟩
          · rw [findPositionAux, if_neg h, hk]
            push_cast
            ring
          · intro j hj
            match j with
            | 0 => simp [h]
            | j + 1 =>
                simp only [List.get?_cons_succ]
                exact hmin j (by omega)

/-- C8: after a self-position recomputation, the stored position is the least
index of the whitelist member equal to this agent's identity tag, or -1 when
no member matches; consequently the position is nonnegative and strictly below
the whitelist size whenever it is not -1. -/
theorem C8_selfPosition_least (networks : List String) (tag : String) :
    (∀ k : ℕ, fetchAndUpdateNetworksData networks tag = (k : ℤ) →
      networks.get? k = some tag ∧ ∀ j : ℕ, j < k → networks.get? j ≠ some tag) ∧
    (fetchAndUpdateNetworksData networks tag = -1 ↔
      ∀ j : ℕ, networks.get? j ≠ some tag) ∧
    (fetchAndUpdateNetworksData networks tag ≠ -1 →
      0 ≤ fetchAndUpdateNetworksData networks tag ∧
      fetchAndUpdateNetworksData networks tag < (networks.length : ℤ)) := by
  rcases findPositionAux_spec tag networks 0 le_rfl with ⟨h1, h2⟩ | ⟨k, hk, hget, hmin⟩
  · refine ⟨?_, ⟨fun _ => h2, fun _ => h1⟩, ?_⟩
    · intro k hk
      exfalso
      rw [fetchAndUpdateNetworksData] at hk
      rw [h1] at hk
      omega
    · intro hne
      exact absurd h1 hne
  · have hres : fetchAndUpdateNetworksData networks tag = (k : ℤ) := by
      rw [fetchAndUpdateNetworksData, hk]
      ring
    refine ⟨?_, ⟨?_, ?_⟩, ?_⟩
    · intro k2 hk2
      rw [hres] at hk2
      have : k2 = k := by omega
      rw [this]
      exact ⟨hget, hmin⟩
    · intro hneg
      rw [hres] at hneg
      omega
    · intro hall
      exact absurd hget (hall k)
    · intro _
      rw [hres]
      have hlt : k < networks.length := by
        rcases List.get?_eq_some.mp hget with ⟨hlen, _⟩
        exact hlen
      exact ⟨by omega, by exact_mod_cast hlt⟩

/-- Witness for C8 on a concrete whitelist where the tag sits at index 1. -/
theorem C8_witness :
    (["0xA", "KEEP3R", "0xB"] : List String).get? 1 = some "KEEP3R" ∧
    ∀ j : ℕ, j < 1 → (["0xA", "KEEP3R", "0xB"] : List String).get? j ≠ some "KEEP3R" :=
  (C8_selfPosition_least ["0xA", "KEEP3R", "0xB"] "KEEP3R").1 1 (by decide)

/-! ## trackedJobs: the jobs mapping of fetchJobsAndSubscribeToChanges

The source declares `const jobs: Record<Address, UnsubscribeFunction |
undefined> = {}`. The initial fetch stores `jobs[jobAddress] = undefined` for
every fetched address, the AddJob handler stores `jobs[jobAddress] =
undefined`, and the RemoveJob handler runs `if (jobs[jobAddress])
jobs[jobAddress]!();` (the truthiness test passes only for a stored function)
and then `delete jobs[jobAddress]`. -/

/-- Type of a stored per-job unsubscribe function. -/
def Unsub : Type := Unit → Unit

/-- Assignment `jobs[a] = undefined` on an insertion-ordered record. -/
def setKey (s : List (String × Option Unsub)) (a : String) : List (String × Option Unsub) :=
  if s.any (fun p => p.1 == a) then
    s.map (fun p => if p.1 == a then (p.1, none) else p)
  else s ++ [(a, none)]

/-- Deletion `delete jobs[a]`. -/
def delKey (s : List (String × Option Unsub)) (a : String) : List (String × Option Unsub) :=
  s.filter (fun p => !(p.1 == a))

/-- Lookup `jobs[a]`: `none` when the key is absent, otherwise the stored
value. -/
def lookupVal (s : List (String × Option Unsub)) (a : String) : Option (Option Unsub) :=
  (s.find? (fun p => p.1 == a)).map Prod.snd

/-- Operations the source performs on the jobs mapping. -/
inductive JobsOp
  | fetch (addrs : List String)
  | add (addr : String)
  | remove (addr : String)

/-- Applies one operation, returning the updated mapping and whether the
RemoveJob handler's conditional `jobs[jobAddress]!()` call executed (it
executes exactly when the stored value is truthy, i.e. a function). -/
def applyOp (s : List (String × Option Unsub)) : JobsOp → List (String × Option Unsub) × Bool
  | JobsOp.fetch addrs => (addrs.foldl setKey s, false)
  | JobsOp.add a => (setKey s a, false)
  | JobsOp.remove a =>
      (delKey s a,
        match lookupVal s a with
        | some (some _) => true
        | _ => false)

/-- Runs a sequence of operations from a mapping state; the boolean records
whether any stored unsubscribe function was ever invoked. -/
def runOps : List (String × Option Unsub) → List JobsOp → List (String × Option Unsub) × Bool
  | s, [] => (s, false)
  | s, op :: rest =>
      ((runOps (applyOp s op).1 rest).1, (applyOp s op).2 || (runOps (applyOp s op).1 rest).2)

/-- Every value of the mapping is `undefined`. -/
def AllNone (s : List (String × Option Unsub)) : Prop := ∀ p ∈ s, p.2 = none

theorem allNone_setKey (s : List (String × Option Unsub)) (a : String) (h : AllNone s) :
    AllNone (setKey s a) := by
  unfold setKey
  split
  · intro p hp
    rcases List.mem_map.mp hp with ⟨q, hq, hpq⟩
    rw [← hpq]
    by_cases hqa : q.1 == a
    · simp [hqa]
    · simp only [hqa, Bool.false_eq_true, if_false]
      exact h q hq
  · intro p hp
    rcases List.mem_append.mp hp with hp | hp
    · exact h p hp
    · rw [List.mem_singleton.mp hp]

theorem allNone_foldl_setKey (addrs : List String) :
    ∀ s, AllNone s → AllNone (addrs.foldl setKey s) := by
  induction addrs with
  | nil => intro s h; exact h
  | cons a rest ih => intro s h; exact ih (setKey s a) (allNone_setKey s a h)

theorem allNone_delKey (s : List (String × Option Unsub)) (a : String) (h : AllNone s) :
    AllNone (delKey s a) := by
  intro p hp
  exact h p (List.mem_of_mem_filter hp)

theorem lookupVal_allNone (s : List (String × Option Unsub)) (a : String) (h : AllNone s) :
    ∀ v, lookupVal s a = some v → v = none := by
  intro v hv
  unfold lookupVal at hv
  cases hf : s.find? (fun p => p.1 == a) with
  | none => rw [hf] at hv; simp at hv
  | some q =>
      rw [hf] at hv
      simp only [Option.map_some'] at hv
      injection hv with hv
      have hmem := List.mem_of_find?_eq_some hf
      rw [← hv]
      exact h q hmem

theorem applyOp_preserves (s : List (String × Option Unsub)) (op : JobsOp) (h : AllNone s) :
    AllNone (applyOp s op).1 ∧ (applyOp s op).2 = false := by
  cases op with
  | fetch addrs => exact ⟨allNone_foldl_setKey addrs s h, rfl⟩
  | add a => exact ⟨allNone_setKey s a h, rfl⟩
  | remove a =>
      refine ⟨allNone_delKey s a h, ?_⟩
      show (match lookupVal s a with | some (some _) => true | _ => false) = false
      cases hv : lookupVal s a with
      | none => rfl
      | some v =>
          have hvn : v = none := lookupVal_allNone s a h v hv
          rw [hvn]

theorem runOps_preserves (ops : List JobsOp) :
    ∀ s, AllNone s → AllNone (runOps s ops).1 ∧ (runOps s ops).2 = false := by
  induction ops with
  | nil => intro s h; exact ⟨h, rfl⟩
  | cons op rest ih =>
      intro s h
      have h1 := applyOp_preserves s op h
      have h2 := ih (applyOp s op).1 h1.1
      refine ⟨h2.1, ?_⟩
      show ((applyOp s op).2 || (runOps (applyOp s op).1 rest).2) = false
      rw [h1.2, h2.2]
      rfl

/-- C9: starting from the empty mapping, every value ever stored in the jobs
mapping is `undefined` under any sequence of fetch, job-added and job-removed
operations, so the RemoveJob handler's conditional unsubscribe call never
executes and processing a job-removed event only deletes the key. -/
theorem C9_jobs_values_undefined (ops : List JobsOp) :
    (∀ p ∈ (runOps [] ops).1, p.2 = none) ∧ (runOps [] ops).2 = false :=
  runOps_preserves ops [] (fun p hp => absurd hp (List.not_mem_nil p))

/-- Witness for C9 on a concrete operation sequence. -/
theorem C9_witness :
    ("0xC", (none : Option Unsub)).2 = (none : Option Unsub) ∧
    (runOps [] [JobsOp.add "0xC"]).2 = false :=
  ⟨(C9_jobs_values_undefined [JobsOp.add "0xC"]).1 ("0xC", none) (List.mem_singleton.mpr rfl),
   (C9_jobs_values_undefined [JobsOp.add "0xC"]).2⟩

/-! ## Supporting facts about the Flashbots variant's cycle structure -/

/-- Embedding of the head of the Flashbots variant's `run`: it is invoked
after the startup resync and again at each window end, and returns before any
window computation when `keep3rSequencerPosition` is -1; otherwise it computes
the window bounds for the cycle. -/
def runOldStart (pos currentBlock blocksInWindow networksAmount : ℤ) : Option (ℤ × ℤ) :=
  if pos = -1 then none
  else
    let ws := calculateNextMasterWindow currentBlock blocksInWindow networksAmount pos
    some (ws, ws + blocksInWindow)

/-- In the recursive variant, a cycle that begins with position -1 performs no
window computation (and therefore starts no subscription and dispatches no job
attempts, and does not reschedule itself). -/
theorem runOldStart_halts_not_whitelisted (pos currentBlock blocksInWindow networksAmount : ℤ)
    (h : pos = -1) :
    runOldStart pos currentBlock blocksInWindow networksAmount = none := by
  rw [runOldStart, if_pos h]

/-- Closed instance of the halting fact of the recursive variant. -/
theorem runOldStart_halts_example : runOldStart (-1) 100 13 5 = none :=
  runOldStart_halts_not_whitelisted (-1) 100 13 5 rfl
